import Mathlib

/-!
Verification development for the redis-orchestrator job-dispatch plugin.

Each definition is a shallow embedding of a function from the TypeScript
source (file and symbol named in its doc comment).  Machine integers are
modelled as `Nat`/`Int`; fallible operations return `Option`; the Redis
store value for one key is passed and returned explicitly.
-/

namespace KsOpenclaw

-- ===========================================================================
-- Approval records and CAS scripts (approval-logic.ts)
-- ===========================================================================

/-- Approval record lifecycle states (types.ts, `ApprovalRecord.status`). -/
inductive ApprovalStatus where
  | pending
  | approved
  | rejected
  | expired
  | approvedSpawnFailed
  deriving DecidableEq, Repr

/-- Fields of an approval record touched by the CAS scripts
(approval-logic.ts): `status`, `approvedAt`, `rejectedBy`, `rejectedAt`.
Other fields of the record are unchanged by both scripts and are elided. -/
structure ApprovalRec where
  status : ApprovalStatus
  approvedAt : Option Nat
  rejectedBy : Option String
  rejectedAt : Option String
  deriving DecidableEq, Repr

/-- The raw value stored at `orch:approval:{id}`: either valid JSON for a
record or a string `cjson.decode` fails on. -/
inductive ApprovalRaw where
  | malformed
  | record (r : ApprovalRec)
  deriving DecidableEq, Repr

/-- Result of a CAS Lua script: `nil` (key missing), `'malformed'`,
`'ok'`, or the record's current status string. -/
inductive CasReply where
  | missing
  | malformed
  | ok
  | already (s : ApprovalStatus)
  deriving DecidableEq, Repr

/-- `CAS_APPROVE_LUA` (approval-logic.ts:32-46).  Reads the key, returns
`nil` when absent and `'malformed'` on a parse error; transitions to
`approved` only from `pending` or `approved_spawn_failed`, setting
`approvedAt` from `ARGV[1]` when it is not already set; otherwise returns
the current status and leaves the value untouched. -/
def casApprove (store : Option ApprovalRaw) (approvedAtArg : Nat) :
    CasReply × Option ApprovalRaw :=
  match store with
  | none => (CasReply.missing, none)
  | some ApprovalRaw.malformed => (CasReply.malformed, some ApprovalRaw.malformed)
  | some (ApprovalRaw.record r) =>
    if r.status ≠ ApprovalStatus.pending ∧ r.status ≠ ApprovalStatus.approvedSpawnFailed then
      (CasReply.already r.status, some (ApprovalRaw.record r))
    else
      (CasReply.ok,
        some (ApprovalRaw.record
          { r with
            status := ApprovalStatus.approved
            approvedAt := some (r.approvedAt.getD approvedAtArg) }))

/-- `CAS_REJECT_LUA` (approval-logic.ts:63-76).  Transitions to `rejected`
only from `pending`, recording `rejectedBy` and `rejectedAt`; any other
current status is returned unchanged. -/
def casReject (store : Option ApprovalRaw) (rejecterId : String)
    (rejectedAtArg : String) : CasReply × Option ApprovalRaw :=
  match store with
  | none => (CasReply.missing, none)
  | some ApprovalRaw.malformed => (CasReply.malformed, some ApprovalRaw.malformed)
  | some (ApprovalRaw.record r) =>
    if r.status ≠ ApprovalStatus.pending then
      (CasReply.already r.status, some (ApprovalRaw.record r))
    else
      (CasReply.ok,
        some (ApprovalRaw.record
          { r with
            status := ApprovalStatus.rejected
            rejectedBy := some rejecterId
            rejectedAt := some rejectedAtArg }))

/-- A record status from which the approve CAS may fire. -/
def approveEligible (s : ApprovalStatus) : Prop :=
  s = ApprovalStatus.pending ∨ s = ApprovalStatus.approvedSpawnFailed

instance : DecidablePred approveEligible := fun s => by
  unfold approveEligible; infer_instance

-- ===========================================================================
-- Job records (types.ts)
-- ===========================================================================

/-- `AgentJobStatus` (types.ts): record-level lifecycle states. -/
inductive AgentJobStatus where
  | queued
  | active
  | announcing
  | completed
  | failed
  | failedPermanent
  | retrying
  | stalled
  deriving DecidableEq, Repr

/-- Job record fields (types.ts `AgentJob`) used by the verified
components; JS `undefined` is `none`. -/
structure AgentJob where
  jobId : String
  target : String
  task : String
  dispatchedBy : String
  project : Option String
  status : AgentJobStatus
  queuedAt : Nat
  startedAt : Option Nat
  completedAt : Option Nat
  result : Option String
  error : Option String
  openclawRunId : Option String
  openclawSessionKey : Option String
  dispatcherSessionKey : Option String
  label : Option String
  retryCount : Option Nat
  originalJobId : Option String
  retriedByJobId : Option String
  storeResult : Option Bool
  dependsOn : Option (List String)
  deriving DecidableEq, Repr

/-- BullMQ queue-level state of a job (distinct from `AgentJob.status`). -/
inductive BullState where
  | wait
  | active
  | completed
  | failed
  | delayed
  | paused
  | waitingChildren
  deriving DecidableEq, Repr

/-- A job as it sits on a queue: BullMQ state plus the record payload. -/
structure QueuedJob where
  bullState : BullState
  data : AgentJob
  deriving DecidableEq, Repr

-- ===========================================================================
-- Circuit breaker (circuit-breaker.ts, `QueueCircuitBreaker`)
-- ===========================================================================

/-- Breaker states (`'closed' | 'open' | 'half-open'`). -/
inductive CBState where
  | closed
  | opened
  | halfOpen
  deriving DecidableEq, Repr

/-- `CircuitBreakerConfig` (circuit-breaker.ts): `failMax`, `resetTimeout`. -/
structure BreakerConfig where
  failMax : Nat
  resetTimeout : Int
  deriving DecidableEq, Repr

/-- Mutable fields of `QueueCircuitBreaker`: `failures`, `lastFailure`,
`state`. -/
structure Breaker where
  failures : Nat
  lastFailure : Int
  state : CBState
  deriving DecidableEq, Repr

/-- The `try`/`catch` body of `QueueCircuitBreaker.dispatch`
(circuit-breaker.ts:38-59), reached when the open-state gate did not
short-circuit to the fallback.  `primaryOk` is whether `fn()` resolved.
On success the breaker closes and the failure count zeroes; on failure
the count increments, `lastFailure` becomes `now`, and the breaker opens
when the count reaches `failMax`.  The `Bool` is whether the primary ran. -/
def runPrimary (cfg : BreakerConfig) (cb : Breaker) (now : Int) (primaryOk : Bool) :
    Bool × Breaker :=
  if primaryOk then
    (true, { cb with state := CBState.closed, failures := 0 })
  else
    let f := cb.failures + 1
    let cb1 := { cb with failures := f, lastFailure := now }
    (true, if cfg.failMax ≤ f then { cb1 with state := CBState.opened } else cb1)

/-- `QueueCircuitBreaker.dispatch` (circuit-breaker.ts:24-60) as a state
step.  In the open state: if `now - lastFailure > resetTimeout` the
breaker moves to half-open and the primary runs; otherwise the fallback
is invoked and the state is untouched.  Closed and half-open run the
primary directly. -/
def dispatchStep (cfg : BreakerConfig) (cb : Breaker) (now : Int) (primaryOk : Bool) :
    Bool × Breaker :=
  match cb.state with
  | CBState.opened =>
    if cfg.resetTimeout < now - cb.lastFailure then
      runPrimary cfg { cb with state := CBState.halfOpen } now primaryOk
    else
      (false, cb)
  | _ => runPrimary cfg cb now primaryOk

/-- `QueueCircuitBreaker.forceOpen` (circuit-breaker.ts:67-73): no-op when
already open; otherwise opens immediately with `lastFailure = now` and
`failures = failMax`. -/
def forceOpen (cfg : BreakerConfig) (cb : Breaker) (now : Int) : Breaker :=
  if cb.state = CBState.opened then cb
  else { failures := cfg.failMax, lastFailure := now, state := CBState.opened }

/-- A sequence of `dispatch` calls; returns how many of them invoked the
primary, and the final breaker state. -/
def runCalls (cfg : BreakerConfig) (cb : Breaker) :
    List (Int × Bool) → Nat × Breaker
  | [] => (0, cb)
  | (now, primaryOk) :: rest =>
    let step := dispatchStep cfg cb now primaryOk
    let tail := runCalls cfg step.2 rest
    ((if step.1 then 1 else 0) + tail.1, tail.2)

-- ===========================================================================
-- Dependency-gate worker (dependency-gate-worker.ts)
-- ===========================================================================

/-- How the gate's poll observes the dependency job: its BullMQ state when
found, or not found (index/queue lookup failed). -/
inductive DepObs where
  | completed
  | failed
  | inProgress
  | missing
  deriving DecidableEq, Repr

/-- How `processGate` finishes: returns normally, throws
`UnrecoverableError` (dependency failed), or throws a plain `Error`
(recoverable: dependency missing, or the 30-minute cap elapsed). -/
inductive GateOutcome where
  | passed
  | unrecoverableFailed
  | recoverableMissing
  | recoverableTimeout
  deriving DecidableEq, Repr

/-- `POLL_INTERVAL_MS` (dependency-gate-worker.ts:20). -/
def POLL_INTERVAL_MS : Nat := 5000

/-- `MAX_WAIT_MS` (dependency-gate-worker.ts:22). -/
def MAX_WAIT_MS : Nat := 1800000

/-- The polling loop of `processGate` (dependency-gate-worker.ts:40-73)
from poll number `k`.  Each iteration sleeps `POLL_INTERVAL_MS`, so the
elapsed time at poll `k` is `k * POLL_INTERVAL_MS`; the loop runs while
that is below `MAX_WAIT_MS` and otherwise throws the timeout error.
`obs k` is the state of the dependency job observed at poll `k`. -/
def gateLoop (obs : Nat → DepObs) (k : Nat) : GateOutcome :=
  if h : k * POLL_INTERVAL_MS < MAX_WAIT_MS then
    match obs k with
    | DepObs.completed => GateOutcome.passed
    | DepObs.failed => GateOutcome.unrecoverableFailed
    | DepObs.missing => GateOutcome.recoverableMissing
    | DepObs.inProgress => gateLoop obs (k + 1)
  else
    GateOutcome.recoverableTimeout
termination_by MAX_WAIT_MS / POLL_INTERVAL_MS - k
decreasing_by
  simp only [POLL_INTERVAL_MS, MAX_WAIT_MS] at h ⊢
  omega

/-- `processGate` (dependency-gate-worker.ts:29-74): the loop started at
poll 0. -/
def processGate (obs : Nat → DepObs) : GateOutcome := gateLoop obs 0

/-- Fuel-indexed reformulation of the polling loop, used to reason about
`gateLoop` by structural induction. -/
def gateAux (obs : Nat → DepObs) (k : Nat) : Nat → GateOutcome
  | 0 => GateOutcome.recoverableTimeout
  | fuel + 1 =>
    match obs k with
    | DepObs.completed => GateOutcome.passed
    | DepObs.failed => GateOutcome.unrecoverableFailed
    | DepObs.missing => GateOutcome.recoverableMissing
    | DepObs.inProgress => gateAux obs (k + 1) fuel

/-- Number of polls that fit inside the 30-minute cap. -/
def gatePollBudget : Nat := MAX_WAIT_MS / POLL_INTERVAL_MS

-- ===========================================================================
-- Startup recovery (service.ts, `recoverInterruptedJobs`)
-- ===========================================================================

/-- The per-queue body of `recoverInterruptedJobs` (service.ts:214-235):
add the queue's `active` count to `activeCount`, fetch the jobs in the
BullMQ `active` state and count those whose record `status` is
`announcing` (logging each), and close the queue.  No job is written. -/
def recoverQueueScan (queue : List QueuedJob) : Nat × Nat × List QueuedJob :=
  let activeJobs := queue.filter (fun j => j.bullState = BullState.active)
  let announcing :=
    activeJobs.filter (fun j => j.data.status = AgentJobStatus.announcing)
  (activeJobs.length, announcing.length, queue)

/-- `recoverInterruptedJobs` (service.ts:203-247): fold the scan over
every queue, accumulating `activeCount` and `announcingCount`.  Returns
the two counters and the queues as the routine leaves them. -/
def recoverInterruptedJobs (queues : List (List QueuedJob)) :
    Nat × Nat × List (List QueuedJob) :=
  match queues with
  | [] => (0, 0, [])
  | q :: rest =>
    let scanned := recoverQueueScan q
    let tail := recoverInterruptedJobs rest
    (scanned.1 + tail.1, scanned.2.1 + tail.2.1, scanned.2.2 :: tail.2.2)

-- ===========================================================================
-- Agent-level failure retry (hooks.ts, `handleAgentFailureRetry`)
-- ===========================================================================

/-- Observable outcome of `handleAgentFailureRetry` (hooks.ts:213-290):
either a new retry job is enqueued (with its payload, queue and delay)
and the failed job is relinked, or the job is marked permanently failed
and a notification may go to the dispatcher session. -/
inductive RetryOutcome where
  | retried (newJob : AgentJob) (queueName : String) (delayMs : Nat)
      (updatedOld : AgentJob)
  | permanent (updatedOld : AgentJob) (notified : Bool)
  deriving DecidableEq, Repr

/-- `sendPermanentFailureNotification` (hooks.ts:299-335): skipped when
the job has `retriedByJobId` set (intermediate retry record) or has no
`dispatcherSessionKey`; otherwise the dispatcher session is messaged. -/
def permanentFailureNotified (jobData : AgentJob) : Bool :=
  jobData.retriedByJobId = none ∧ jobData.dispatcherSessionKey ≠ none

/-- `handleAgentFailureRetry` (hooks.ts:213-290).  With
`retryCount = jobData.retryCount ?? 0`: when `retryCount < maxAttempts-1`
a new job is added on the same queue with `retryCount+1`,
`originalJobId = originalJobId ?? jobId`, lifecycle fields reset, and
delay `baseDelay * 2^retryCount`, and the failed job gets
`status = retrying`, `retriedByJobId = newJobId`.  Otherwise the failed
job gets `status = failed_permanent` and the permanent-failure
notification is attempted. -/
def handleAgentFailureRetry (jobData : AgentJob) (jobId queueName : String)
    (maxAttempts baseDelay : Nat) (newJobId : String) : RetryOutcome :=
  let retryCount := jobData.retryCount.getD 0
  if retryCount < maxAttempts - 1 then
    let backoffDelay := baseDelay * 2 ^ retryCount
    let newJob : AgentJob :=
      { jobData with
        retryCount := some (retryCount + 1)
        originalJobId := some (jobData.originalJobId.getD jobId)
        status := AgentJobStatus.queued
        startedAt := none
        completedAt := none
        error := none
        result := none
        openclawRunId := none
        openclawSessionKey := none
        retriedByJobId := none }
    let updatedOld : AgentJob :=
      { jobData with
        status := AgentJobStatus.retrying
        retriedByJobId := some newJobId }
    RetryOutcome.retried newJob queueName backoffDelay updatedOld
  else
    RetryOutcome.permanent
      { jobData with status := AgentJobStatus.failedPermanent }
      (permanentFailureNotified jobData)

-- ===========================================================================
-- Worker launch validation (worker.ts, `processJob` steps 1-2)
-- ===========================================================================

/-- Error classes a launch can throw: BullMQ `UnrecoverableError`
(never retried) versus a plain `Error` (retried by the queue). -/
inductive LaunchErr where
  | unrecoverable (msg : String)
  | recoverable (msg : String)
  deriving DecidableEq, Repr

/-- The depth and fan-out validations of `processJob`
(worker.ts:126-146), in source order: `callerDepth >= maxSpawnDepth`
throws `UnrecoverableError`; then `activeChildren >= maxChildren` throws
a plain `Error`. -/
def validateLaunchLimits (callerDepth maxSpawnDepth activeChildren maxChildren : Nat) :
    Except LaunchErr Unit :=
  if maxSpawnDepth ≤ callerDepth then
    Except.error (LaunchErr.unrecoverable "Depth limit exceeded")
  else if maxChildren ≤ activeChildren then
    Except.error (LaunchErr.recoverable "Active children limit reached. Job will retry.")
  else
    Except.ok ()

/-- Modelled from the spec: the queue's launch-retry policy (spec §4.3,
§4.5; implemented by the BullMQ library, outside this repository) retries
a failed launch attempt while attempts remain, except that an
`UnrecoverableError` bypasses retry entirely. -/
def launchRetryPolicyRetries (e : LaunchErr) (attemptsMade attempts : Nat) : Bool :=
  match e with
  | LaunchErr.unrecoverable _ => false
  | LaunchErr.recoverable _ => attemptsMade < attempts

-- ===========================================================================
-- Dispatch rate limiting (tools/queue-dispatch.ts)
-- ===========================================================================

/-- `RATE_LIMIT_LUA` (queue-dispatch.ts:441-447): `INCR` the per-caller
key (a missing key counts as 0) and set a 60-second TTL exactly when the
incremented value is 1.  Returns the incremented value, the new stored
counter, and the TTL seconds set (if any). -/
def rateLimitLua (counter : Option Nat) : Nat × Option Nat × Option Nat :=
  let current := counter.getD 0 + 1
  (current, some current, if current = 1 then some 60 else none)

/-- The rate-limit gate of `createQueueDispatchTool`
(queue-dispatch.ts:831-840): when `dispatchesPerMinute > 0`, run the Lua
script and reject with `rate_limited` when `current > dispatchesPerMinute`.
Returns `(accepted, new counter, ttl set)`. -/
def rateLimitGate (dispatchesPerMinute : Nat) (counter : Option Nat) :
    Bool × Option Nat × Option Nat :=
  if 0 < dispatchesPerMinute then
    let r := rateLimitLua counter
    (¬ dispatchesPerMinute < r.1, r.2.1, r.2.2)
  else
    (true, counter, none)

/-- Default per-caller dispatch limit
(`dispatchesPerMinute ?? 10`, queue-dispatch.ts:827). -/
def defaultDispatchesPerMinute : Nat := 10

-- ===========================================================================
-- Authorization helpers (auth-helpers.ts) and query tools
-- (tools/queue-status.ts, tools/queue-list.ts)
-- ===========================================================================

/-- `SYSTEM_AGENTS` (auth-helpers.ts:41). -/
def SYSTEM_AGENTS : List String := ["lucius", "ultron", "meta", "main"]

/-- JS `String.prototype.toLowerCase` on agent ids, character by
character. -/
def toLowerStr (s : String) : String :=
  String.mk (s.data.map Char.toLower)

/-- `isSystemAgent` (auth-helpers.ts:50-52). -/
def isSystemAgent (agentId : String) : Bool :=
  SYSTEM_AGENTS.contains (toLowerStr agentId)

/-- The projection of a job record a query tool returns.  JS skips a
field when the value is falsy, so an absent or empty-string field is
`none`; fields irrelevant to authorization are elided. -/
structure JobView where
  jobId : String
  status : AgentJobStatus
  target : String
  dispatchedBy : String
  label : Option String
  openclawSessionKey : Option String
  dependsOn : Option (List String)
  deriving DecidableEq, Repr

/-- JS truthiness for an optional string field: `undefined` and `""` are
both skipped. -/
def truthyStr (s : Option String) : Option String :=
  match s with
  | none => none
  | some v => if v.isEmpty then none else some v

/-- The `jobSummary` / `result` projection built by the query tools from
a record. -/
def jobViewOf (j : AgentJob) : JobView :=
  { jobId := j.jobId
    status := j.status
    target := j.target
    dispatchedBy := j.dispatchedBy
    label := truthyStr j.label
    openclawSessionKey := truthyStr j.openclawSessionKey
    dependsOn :=
      match j.dependsOn with
      | some l => if l.isEmpty then none else some l
      | none => none }

/-- `stripSensitiveFields` (auth-helpers.ts:72-81): for non-system
callers, delete `openclawSessionKey`. -/
def stripSensitiveFields (v : JobView) (callerAgentId : String) : JobView :=
  if isSystemAgent callerAgentId then v
  else { v with openclawSessionKey := none }

/-- Replies of the `queue_status` tool. -/
inductive StatusReply where
  | notFound
  | unauthorized
  | ok (v : JobView)
  deriving DecidableEq, Repr

/-- `createQueueStatusTool` (tools/queue-status.ts, Phase 3 version):
index lookup, then the cross-agent authorization check
(`dispatchedBy === caller || target === caller` unless the caller is a
system agent), then the projected record passed through
`stripSensitiveFields`. -/
def queueStatusTool (callerAgentId : String) (found : Option AgentJob) : StatusReply :=
  match found with
  | none => StatusReply.notFound
  | some jobData =>
    if ¬ isSystemAgent callerAgentId
        ∧ jobData.dispatchedBy ≠ callerAgentId
        ∧ jobData.target ≠ callerAgentId then
      StatusReply.unauthorized
    else
      StatusReply.ok (stripSensitiveFields (jobViewOf jobData) callerAgentId)

/-- The job-collection loop of `createQueueListTool`
(tools/queue-list.ts:134-194): `jobs` is the scan order over the queried
queues and states.  A job is skipped when the collection already reached
`cappedLimit`, when a non-system caller is neither its dispatcher nor its
target, or when it fails the project filter; otherwise its summary is
appended. -/
def queueListCollect (callerAgentId : String) (projectFilter : Option String)
    (cappedLimit : Nat) : List AgentJob → List JobView → List JobView
  | [], acc => acc
  | j :: rest, acc =>
    if cappedLimit ≤ acc.length then acc
    else if ¬ isSystemAgent callerAgentId
        ∧ j.dispatchedBy ≠ callerAgentId
        ∧ j.target ≠ callerAgentId then
      queueListCollect callerAgentId projectFilter cappedLimit rest acc
    else if (match projectFilter with
        | some pf => j.project != some pf
        | none => false : Bool) then
      queueListCollect callerAgentId projectFilter cappedLimit rest acc
    else
      queueListCollect callerAgentId projectFilter cappedLimit rest (acc ++ [jobViewOf j])

/-- `createQueueListTool` (tools/queue-list.ts:65-217): collect, then map
`stripSensitiveFields` over the summaries. -/
def queueListTool (callerAgentId : String) (projectFilter : Option String)
    (cappedLimit : Nat) (jobs : List AgentJob) : List JobView :=
  (queueListCollect callerAgentId projectFilter cappedLimit jobs []).map
    (fun v => stripSensitiveFields v callerAgentId)

-- ===========================================================================
-- Queue naming (service.ts `setupDLQListeners`, worker.ts `createWorkers`,
-- job-tracker.ts `getQueueForAgent`)
-- ===========================================================================

/-- Queue name the DLQ failed-event listener subscribes on
(service.ts:158): `agent:` followed by the agent id. -/
def dlqListenerQueueName (agentId : String) : String := "agent:" ++ agentId

/-- Queue name used by `JobTracker.getQueueForAgent` (job-tracker.ts:144)
and `createWorkers` (worker.ts:331): `agent-` followed by the agent id. -/
def trackerQueueName (agentId : String) : String := "agent-" ++ agentId

/-- Modelled from the spec: queue events are keyed by queue name, so a
failed-event subscription on one queue observes exactly the jobs of that
queue (spec §4.10; delivery is done by the BullMQ library, outside this
repository). -/
def failedEventObserved (subscriptionQueue jobQueue : String) : Prop :=
  subscriptionQueue = jobQueue

-- ===========================================================================
-- Discord notification sanitizer (tools/queue-dispatch.ts,
-- `sanitizeTaskForDiscord`)
-- ===========================================================================

/-- Non-overlapping left-to-right replacement of a literal pattern, the
behavior of JS `String.replace` with a global literal regex.  The fuel
starts at the input length; every step consumes at least one character. -/
def replaceLitAux (pat repl : List Char) : Nat → List Char → List Char
  | 0, s => s
  | _ + 1, [] => []
  | fuel + 1, c :: rest =>
    if pat.isPrefixOf (c :: rest) && !pat.isEmpty then
      repl ++ replaceLitAux pat repl fuel (List.drop (pat.length - 1) rest)
    else
      c :: replaceLitAux pat repl fuel rest

/-- Replace every occurrence of the literal `pat` by `repl`. -/
def replaceLit (pat repl s : List Char) : List Char :=
  replaceLitAux pat repl s.length s

/-- Consume a maximal run of ASCII digits; returns the count and rest. -/
def takeDigits : List Char → Nat × List Char
  | [] => (0, [])
  | c :: rest =>
    if c.isDigit then
      let r := takeDigits rest
      (r.1 + 1, r.2)
    else (0, c :: rest)

/-- Match the regex `<@&\d+>` at the head; returns the remainder. -/
def matchRoleMention : List Char → Option (List Char)
  | '<' :: '@' :: '&' :: rest =>
    let d := takeDigits rest
    if 0 < d.1 then
      match d.2 with
      | '>' :: rem => some rem
      | _ => none
    else none
  | _ => none

/-- Match the regex `<@!?\d+>` at the head; returns the remainder. -/
def matchUserMention : List Char → Option (List Char)
  | '<' :: '@' :: rest =>
    let rest1 := match rest with
      | '!' :: r => r
      | r => r
    let d := takeDigits rest1
    if 0 < d.1 then
      match d.2 with
      | '>' :: rem => some rem
      | _ => none
    else none
  | _ => none

/-- Match the regex `<#\d+>` at the head; returns the remainder. -/
def matchChannelMention : List Char → Option (List Char)
  | '<' :: '#' :: rest =>
    let d := takeDigits rest
    if 0 < d.1 then
      match d.2 with
      | '>' :: rem => some rem
      | _ => none
    else none
  | _ => none

/-- Replace every match of a pattern matcher by `repl`, scanning left to
right; the matchers above always consume at least one character. -/
def replaceScanAux (m : List Char → Option (List Char)) (repl : List Char) :
    Nat → List Char → List Char
  | 0, s => s
  | _ + 1, [] => []
  | fuel + 1, c :: rest =>
    match m (c :: rest) with
    | some rem => repl ++ replaceScanAux m repl fuel rem
    | none => c :: replaceScanAux m repl fuel rest

/-- Replace every match of `m` by `repl`. -/
def replaceScan (m : List Char → Option (List Char)) (repl s : List Char) :
    List Char :=
  replaceScanAux m repl s.length s

/-- `sanitizeTaskForDiscord` (tools/queue-dispatch.ts:465-491), on the
character sequence of the task.  The replacement steps run in source
order: mention patterns, then null bytes, then RTL/direction overrides,
then channel mentions, then code-fence escaping, and truncation last. -/
def sanitizeTaskForDiscord (task : List Char) (maxLength : Nat) : List Char :=
  let r1 := replaceLit "@everyone".data "[at-everyone]".data task
  let r2 := replaceLit "@here".data "[at-here]".data r1
  let r3 := replaceScan matchRoleMention "[at-role]".data r2
  let r4 := replaceScan matchUserMention "[at-user]".data r3
  let r5 := r4.filter (fun c => c ≠ '\u0000')
  let r6 := r5.filter (fun c => c ≠ '\u202E' ∧ c ≠ '\u200F' ∧ c ≠ '\u200E')
  let r7 := replaceScan matchChannelMention "[channel]".data r6
  let r8 := replaceLit "```".data "` ` `".data r7
  if maxLength < r8.length then r8.take (maxLength - 3) ++ "...".data else r8

/-- Does `s` contain the literal `pat` as a contiguous substring? -/
def containsLit (pat : List Char) : List Char → Bool
  | [] => pat.isEmpty
  | c :: rest => pat.isPrefixOf (c :: rest) || containsLit pat rest

-- ===========================================================================
-- Helper lemmas
-- ===========================================================================

/-- The wall-clock polling loop agrees with its fuel-indexed form when the
fuel is the number of polls still inside the cap. -/
lemma gateLoop_eq_gateAux (obs : Nat → DepObs) :
    ∀ n k, n = gatePollBudget - k → gateLoop obs k = gateAux obs k n := by
  intro n
  induction n with
  | zero =>
    intro k hk
    rw [gateLoop]
    have hk360 : ¬ k * POLL_INTERVAL_MS < MAX_WAIT_MS := by
      simp only [gatePollBudget, POLL_INTERVAL_MS, MAX_WAIT_MS] at hk ⊢
      omega
    simp [hk360, gateAux]
  | succ m ih =>
    intro k hk
    have hklt : k * POLL_INTERVAL_MS < MAX_WAIT_MS := by
      simp only [gatePollBudget, POLL_INTERVAL_MS, MAX_WAIT_MS] at hk ⊢
      omega
    rw [gateLoop]
    simp only [hklt, dif_pos, gateAux]
    cases hobs : obs k with
    | completed => rfl
    | failed => rfl
    | missing => rfl
    | inProgress =>
      exact ih (k + 1) (by
        simp only [gatePollBudget, POLL_INTERVAL_MS, MAX_WAIT_MS] at hk ⊢
        omega)

/-- Characterization of the fuel-indexed gate loop outcome `passed`. -/
lemma gateAux_passed_iff (obs : Nat → DepObs) :
    ∀ fuel k, gateAux obs k fuel = GateOutcome.passed ↔
      ∃ i, i < fuel ∧ obs (k + i) = DepObs.completed ∧
        ∀ j, j < i → obs (k + j) = DepObs.inProgress := by
  intro fuel
  induction fuel with
  | zero => intro k; simp [gateAux]
  | succ m ih =>
    intro k
    simp only [gateAux]
    cases hobs : obs k with
    | completed =>
      simp only [reduceCtorEq, true_iff]
      exact ⟨0, Nat.succ_pos m, by simpa using hobs, fun j hj => absurd hj (Nat.not_lt_zero j)⟩
    | failed =>
      simp only [reduceCtorEq, false_iff]
      rintro ⟨i, _, hc, hprog⟩
      cases i with
      | zero => simp [hobs] at hc
      | succ i' => have := hprog 0 (Nat.succ_pos i'); simp [hobs] at this
    | missing =>
      simp only [reduceCtorEq, false_iff]
      rintro ⟨i, _, hc, hprog⟩
      cases i with
      | zero => simp [hobs] at hc
      | succ i' => have := hprog 0 (Nat.succ_pos i'); simp [hobs] at this
    | inProgress =>
      rw [ih (k + 1)]
      constructor
      · rintro ⟨i, hi, hc, hprog⟩
        refine ⟨i + 1, by omega, by simpa [Nat.add_assoc, Nat.add_comm 1 i] using hc, ?_⟩
        intro j hj
        cases j with
        | zero => simpa using hobs
        | succ j' =>
          have := hprog j' (by omega)
          simpa [Nat.add_assoc, Nat.add_comm 1 j'] using this
      · rintro ⟨i, hi, hc, hprog⟩
        cases i with
        | zero => simp [hobs] at hc
        | succ i' =>
          refine ⟨i', by omega, by simpa [Nat.add_assoc, Nat.add_comm 1 i'] using hc, ?_⟩
          intro j hj
          have := hprog (j + 1) (by omega)
          simpa [Nat.add_assoc, Nat.add_comm 1 j] using this

/-- Characterization of the fuel-indexed gate loop outcome
`unrecoverableFailed`. -/
lemma gateAux_failed_iff (obs : Nat → DepObs) :
    ∀ fuel k, gateAux obs k fuel = GateOutcome.unrecoverableFailed ↔
      ∃ i, i < fuel ∧ obs (k + i) = DepObs.failed ∧
        ∀ j, j < i → obs (k + j) = DepObs.inProgress := by
  intro fuel
  induction fuel with
  | zero => intro k; simp [gateAux]
  | succ m ih =>
    intro k
    simp only [gateAux]
    cases hobs : obs k with
    | failed =>
      simp only [reduceCtorEq, true_iff]
      exact ⟨0, Nat.succ_pos m, by simpa using hobs, fun j hj => absurd hj (Nat.not_lt_zero j)⟩
    | completed =>
      simp only [reduceCtorEq, false_iff]
      rintro ⟨i, _, hc, hprog⟩
      cases i with
      | zero => simp [hobs] at hc
      | succ i' => have := hprog 0 (Nat.succ_pos i'); simp [hobs] at this
    | missing =>
      simp only [reduceCtorEq, false_iff]
      rintro ⟨i, _, hc, hprog⟩
      cases i with
      | zero => simp [hobs] at hc
      | succ i' => have := hprog 0 (Nat.succ_pos i'); simp [hobs] at this
    | inProgress =>
      rw [ih (k + 1)]
      constructor
      · rintro ⟨i, hi, hc, hprog⟩
        refine ⟨i + 1, by omega, by simpa [Nat.add_assoc, Nat.add_comm 1 i] using hc, ?_⟩
        intro j hj
        cases j with
        | zero => simpa using hobs
        | succ j' =>
          have := hprog j' (by omega)
          simpa [Nat.add_assoc, Nat.add_comm 1 j'] using this
      · rintro ⟨i, hi, hc, hprog⟩
        cases i with
        | zero => simp [hobs] at hc
        | succ i' =>
          refine ⟨i', by omega, by simpa [Nat.add_assoc, Nat.add_comm 1 i'] using hc, ?_⟩
          intro j hj
          have := hprog (j + 1) (by omega)
          simpa [Nat.add_assoc, Nat.add_comm 1 j] using this

/-- Characterization of the fuel-indexed gate loop outcome
`recoverableTimeout`. -/
lemma gateAux_timeout_iff (obs : Nat → DepObs) :
    ∀ fuel k, gateAux obs k fuel = GateOutcome.recoverableTimeout ↔
      ∀ i, i < fuel → obs (k + i) = DepObs.inProgress := by
  intro fuel
  induction fuel with
  | zero => intro k; simp [gateAux]
  | succ m ih =>
    intro k
    simp only [gateAux]
    cases hobs : obs k with
    | completed =>
      simp only [reduceCtorEq, false_iff]
      intro hall
      have := hall 0 (Nat.succ_pos m)
      simp [hobs] at this
    | failed =>
      simp only [reduceCtorEq, false_iff]
      intro hall
      have := hall 0 (Nat.succ_pos m)
      simp [hobs] at this
    | missing =>
      simp only [reduceCtorEq, false_iff]
      intro hall
      have := hall 0 (Nat.succ_pos m)
      simp [hobs] at this
    | inProgress =>
      rw [ih (k + 1)]
      constructor
      · intro hall i hi
        cases i with
        | zero => simpa using hobs
        | succ i' =>
          have := hall i' (by omega)
          simpa [Nat.add_assoc, Nat.add_comm 1 i'] using this
      · intro hall i hi
        have := hall (i + 1) (by omega)
        simpa [Nat.add_assoc, Nat.add_comm 1 i] using this

/-- Every job view collected by the `queue_list` loop for a non-system
caller has the caller as dispatcher or as target, provided the
accumulator already satisfies that. -/
lemma queueListCollect_visibility (caller : String) (hsys : isSystemAgent caller = false)
    (pf : Option String) (lim : Nat) :
    ∀ jobs acc,
      (∀ v ∈ acc, v.dispatchedBy = caller ∨ v.target = caller) →
      ∀ v ∈ queueListCollect caller pf lim jobs acc,
        v.dispatchedBy = caller ∨ v.target = caller := by
  intro jobs
  induction jobs with
  | nil => intro acc hacc v hv; exact hacc v hv
  | cons j rest ih =>
    intro acc hacc v hv
    rw [queueListCollect.eq_def] at hv
    simp only at hv
    split at hv
    · exact hacc v hv
    · split at hv
      · exact ih acc hacc v hv
      · split at hv
        · exact ih acc hacc v hv
        · rename_i hnfull hnskip hnproj
          refine ih (acc ++ [jobViewOf j]) ?_ v hv
          intro w hw
          rcases List.mem_append.mp hw with hw | hw
          · exact hacc w hw
          · have hwj : w = jobViewOf j := by simpa using hw
            subst hwj
            have hne : ¬ (j.dispatchedBy ≠ caller ∧ j.target ≠ caller) := by
              intro hne
              exact hnskip ⟨by simp [hsys], hne.1, hne.2⟩
            rcases not_and_or.mp hne with h | h
            · exact Or.inl (not_not.mp h)
            · exact Or.inr (not_not.mp h)

/-- While the breaker is open, every call at or before the reset deadline
takes the fallback and leaves the breaker untouched. -/
lemma runCalls_open_all_fallback (cfg : BreakerConfig) (cb : Breaker)
    (hopen : cb.state = CBState.opened) :
    ∀ calls : List (Int × Bool),
      (∀ p ∈ calls, p.1 - cb.lastFailure ≤ cfg.resetTimeout) →
      runCalls cfg cb calls = (0, cb) := by
  intro calls
  induction calls with
  | nil => intro _; rfl
  | cons p rest ih =>
    intro hall
    obtain ⟨now, primaryOk⟩ := p
    have hstep : dispatchStep cfg cb now primaryOk = (false, cb) := by
      have hle : now - cb.lastFailure ≤ cfg.resetTimeout := hall (now, primaryOk) (List.mem_cons_self _ _)
      rw [dispatchStep, hopen, if_neg (by omega)]
    rw [runCalls, hstep]
    have := ih (fun q hq => hall q (List.mem_cons_of_mem _ hq))
    simp [this]

-- ===========================================================================
-- Claim theorems
-- ===========================================================================

/-- C1: the approve CAS moves a record to `approved` exactly when its
current status is `pending` or `approved_spawn_failed`; the reject CAS
moves it to `rejected` exactly when its current status is `pending` and
never overwrites `approved`, `approved_spawn_failed`, or `rejected`; when
a CAS does not apply it returns the record's current status and leaves
the value unchanged; hence when an approve and a reject both hit a
non-terminal record, exactly one of them succeeds, in either order. -/
theorem C1_approval_cas (r : ApprovalRec) (arg : Nat) (rid rat : String) :
    ((casApprove (some (ApprovalRaw.record r)) arg).1 = CasReply.ok ↔ approveEligible r.status)
    ∧ (approveEligible r.status →
        ∃ r2, casApprove (some (ApprovalRaw.record r)) arg
            = (CasReply.ok, some (ApprovalRaw.record r2))
          ∧ r2.status = ApprovalStatus.approved)
    ∧ (¬ approveEligible r.status →
        casApprove (some (ApprovalRaw.record r)) arg
          = (CasReply.already r.status, some (ApprovalRaw.record r)))
    ∧ ((casReject (some (ApprovalRaw.record r)) rid rat).1 = CasReply.ok
        ↔ r.status = ApprovalStatus.pending)
    ∧ (r.status = ApprovalStatus.pending →
        ∃ r2, casReject (some (ApprovalRaw.record r)) rid rat
            = (CasReply.ok, some (ApprovalRaw.record r2))
          ∧ r2.status = ApprovalStatus.rejected)
    ∧ (r.status ≠ ApprovalStatus.pending →
        casReject (some (ApprovalRaw.record r)) rid rat
          = (CasReply.already r.status, some (ApprovalRaw.record r)))
    ∧ (approveEligible r.status →
        ((casApprove (some (ApprovalRaw.record r)) arg).1 = CasReply.ok
          ∧ (casReject (casApprove (some (ApprovalRaw.record r)) arg).2 rid rat).1
              ≠ CasReply.ok)
        ∧ (((casReject (some (ApprovalRaw.record r)) rid rat).1 = CasReply.ok
              ∧ (casApprove (casReject (some (ApprovalRaw.record r)) rid rat).2 arg).1
                  ≠ CasReply.ok)
            ∨ ((casReject (some (ApprovalRaw.record r)) rid rat).1 ≠ CasReply.ok
              ∧ (casApprove (casReject (some (ApprovalRaw.record r)) rid rat).2 arg).1
                  = CasReply.ok))) := by
  obtain ⟨st, aAt, rBy, rAt⟩ := r
  cases st <;>
    simp [casApprove, casReject, approveEligible]

/-- Witness for C1 at a concrete pending record. -/
theorem C1_approval_cas_witness :
    approveEligible ApprovalStatus.pending
    ∧ (casApprove
        (some (ApprovalRaw.record
          { status := ApprovalStatus.pending, approvedAt := none,
            rejectedBy := none, rejectedAt := none })) 99).1 = CasReply.ok :=
  ⟨Or.inl rfl,
    (C1_approval_cas
      { status := ApprovalStatus.pending, approvedAt := none,
        rejectedBy := none, rejectedAt := none } 99 "kevin" "now").1.mpr (Or.inl rfl)⟩

/-- C2 (amended): the startup recovery routine only scans: it reports the
number of BullMQ-active jobs and the number of those whose record status
is `announcing`, and returns every queue — hence every job record —
exactly as it found it, modifying no status, error, or timestamp. -/
theorem C2_recovery_scan_only (queues : List (List QueuedJob)) :
    (recoverInterruptedJobs queues).2.2 = queues
    ∧ (recoverInterruptedJobs queues).1
        = (queues.map
            (fun q => (q.filter (fun j => j.bullState = BullState.active)).length)).sum
    ∧ (recoverInterruptedJobs queues).2.1
        = (queues.map
            (fun q => ((q.filter (fun j => j.bullState = BullState.active)).filter
                (fun j => j.data.status = AgentJobStatus.announcing)).length)).sum := by
  induction queues with
  | nil => exact ⟨rfl, rfl, rfl⟩
  | cons q rest ih =>
    refine ⟨?_, ?_, ?_⟩
    · simp only [recoverInterruptedJobs, recoverQueueScan]
      exact congrArg (q :: ·) ih.1
    · simp only [recoverInterruptedJobs, recoverQueueScan, List.map_cons, List.sum_cons]
      exact congrArg (_ + ·) ih.2.1
    · simp only [recoverInterruptedJobs, recoverQueueScan, List.map_cons, List.sum_cons]
      exact congrArg (_ + ·) ih.2.2

/-- Counterexample data for C2: a job in BullMQ state `active` with
record status `active`, as found after a restart. -/
def c2JobEx : QueuedJob :=
  { bullState := BullState.active
    data :=
      { jobId := "j3", target := "jarvis", task := "step 1", dispatchedBy := "main"
        project := none, status := AgentJobStatus.active, queuedAt := 1000
        startedAt := some 2000, completedAt := none, result := none, error := none
        openclawRunId := none, openclawSessionKey := none
        dispatcherSessionKey := none, label := none, retryCount := none
        originalJobId := none, retriedByJobId := none, storeResult := none
        dependsOn := none } }

/-- C2 counterexample: recovery over one queue holding one active job
leaves the job untouched — its status stays `active` and no error text is
written, contradicting the claim that such a job is force-marked `failed`
with `error="Gateway restart during execution — job state unknown"`. -/
theorem C2_recovery_counterexample :
    recoverInterruptedJobs [[c2JobEx]] = (1, 0, [[c2JobEx]])
    ∧ ¬ ∃ j : QueuedJob,
        (recoverInterruptedJobs [[c2JobEx]]).2.2 = [[j]]
        ∧ j.data.status = AgentJobStatus.failed
        ∧ j.data.error = some "Gateway restart during execution — job state unknown" := by
  refine ⟨by decide, ?_⟩
  rintro ⟨j, hj, hs, _⟩
  have hact : recoverInterruptedJobs [[c2JobEx]] = (1, 0, [[c2JobEx]]) := by decide
  rw [hact] at hj
  have : j = c2JobEx := by simpa using hj.symm
  subst this
  simp [c2JobEx] at hs

/-- C3: for a dependency gate whose dependency job is always found: the
gate passes exactly when the dependency reaches `completed` at some poll
inside the 30-minute cap, throws an unrecoverable error exactly when it
reaches `failed` at some poll inside the cap, and throws the recoverable
timeout error exactly when it does neither within the cap; polls are
5 seconds apart, and the cap admits exactly 30 minutes of polls. -/
theorem C3_dependency_gate (obs : Nat → DepObs)
    (hfound : ∀ i, obs i ≠ DepObs.missing) :
    (processGate obs = GateOutcome.passed ↔
      ∃ i, i < gatePollBudget ∧ obs i = DepObs.completed ∧
        ∀ j, j < i → obs j = DepObs.inProgress)
    ∧ (processGate obs = GateOutcome.unrecoverableFailed ↔
      ∃ i, i < gatePollBudget ∧ obs i = DepObs.failed ∧
        ∀ j, j < i → obs j = DepObs.inProgress)
    ∧ (processGate obs = GateOutcome.recoverableTimeout ↔
      ∀ i, i < gatePollBudget → obs i = DepObs.inProgress)
    ∧ POLL_INTERVAL_MS = 5000
    ∧ MAX_WAIT_MS = 30 * 60 * 1000
    ∧ gatePollBudget * POLL_INTERVAL_MS = MAX_WAIT_MS := by
  have hbridge : processGate obs = gateAux obs 0 gatePollBudget := by
    unfold processGate
    exact gateLoop_eq_gateAux obs gatePollBudget 0 rfl
  refine ⟨?_, ?_, ?_, rfl, rfl, rfl⟩
  · rw [hbridge, gateAux_passed_iff]
    simp
  · rw [hbridge, gateAux_failed_iff]
    simp
  · rw [hbridge, gateAux_timeout_iff]
    simp

/-- Witness for C3: a dependency already completed at the first poll makes
the gate pass. -/
theorem C3_dependency_gate_witness :
    processGate (fun _ => DepObs.completed) = GateOutcome.passed := by
  have h := C3_dependency_gate (fun _ => DepObs.completed) (by intro i; simp)
  exact h.1.mpr
    ⟨0, by norm_num [gatePollBudget, MAX_WAIT_MS, POLL_INTERVAL_MS], rfl,
      fun j hj => absurd hj (Nat.not_lt_zero j)⟩

/-- C4: on an execution failure with `r = retryCount` remaining below
`maxAttempts - 1`, a new job is enqueued on the same queue carrying
`retryCount = r + 1`, `originalJobId` equal to the root of the retry
chain, and a delay of `baseDelay * 2^r`, while the failed job is updated
to `status = retrying` with `retriedByJobId` pointing at the new job;
otherwise the failed job becomes `failed_permanent` and the dispatcher
notification fires only when the job is terminal (`retriedByJobId`
unset). -/
theorem C4_agent_failure_retry (jobData : AgentJob)
    (jobId queueName newJobId : String) (maxAttempts baseDelay : Nat) :
    (jobData.retryCount.getD 0 < maxAttempts - 1 →
      ∃ newJob updatedOld,
        handleAgentFailureRetry jobData jobId queueName maxAttempts baseDelay newJobId
          = RetryOutcome.retried newJob queueName
              (baseDelay * 2 ^ jobData.retryCount.getD 0) updatedOld
        ∧ newJob.retryCount = some (jobData.retryCount.getD 0 + 1)
        ∧ newJob.originalJobId = some (jobData.originalJobId.getD jobId)
        ∧ newJob.status = AgentJobStatus.queued
        ∧ newJob.retriedByJobId = none
        ∧ updatedOld.status = AgentJobStatus.retrying
        ∧ updatedOld.retriedByJobId = some newJobId)
    ∧ (¬ jobData.retryCount.getD 0 < maxAttempts - 1 →
      handleAgentFailureRetry jobData jobId queueName maxAttempts baseDelay newJobId
        = RetryOutcome.permanent
            { jobData with status := AgentJobStatus.failedPermanent }
            (permanentFailureNotified jobData))
    ∧ (permanentFailureNotified jobData = true → jobData.retriedByJobId = none) := by
  refine ⟨?_, ?_, ?_⟩
  · intro hlt
    refine ⟨{ jobData with
        retryCount := some (jobData.retryCount.getD 0 + 1)
        originalJobId := some (jobData.originalJobId.getD jobId)
        status := AgentJobStatus.queued
        startedAt := none
        completedAt := none
        error := none
        result := none
        openclawRunId := none
        openclawSessionKey := none
        retriedByJobId := none },
      { jobData with
        status := AgentJobStatus.retrying
        retriedByJobId := some newJobId },
      ?_, rfl, rfl, rfl, rfl, rfl, rfl⟩
    rw [handleAgentFailureRetry, if_pos hlt]
  · intro hge
    rw [handleAgentFailureRetry, if_neg hge]
  · intro hnote
    have := of_decide_eq_true hnote
    exact this.1

/-- Witness for C4 at a concrete first-failure job (retryCount unset,
default attempts 3, base delay 300000 ms). -/
theorem C4_agent_failure_retry_witness :
    ∃ newJob updatedOld,
      handleAgentFailureRetry
        { c2JobEx.data with status := AgentJobStatus.failed }
        "orig-1" "agent-jarvis" 3 300000 "retry-1"
        = RetryOutcome.retried newJob "agent-jarvis" 300000 updatedOld
      ∧ newJob.retryCount = some 1
      ∧ newJob.originalJobId = some "orig-1"
      ∧ newJob.status = AgentJobStatus.queued
      ∧ newJob.retriedByJobId = none
      ∧ updatedOld.status = AgentJobStatus.retrying
      ∧ updatedOld.retriedByJobId = some "retry-1" := by
  have h := (C4_agent_failure_retry
    { c2JobEx.data with status := AgentJobStatus.failed }
    "orig-1" "agent-jarvis" "retry-1" 3 300000).1 (by decide)
  simpa [c2JobEx] using h

/-- C5 counterexample: with `resetTimeout = 30000` and an open breaker
whose `lastFailure` is 0, a call at `now = 30000` — where
`now - lastFailureTime ≥ resetTimeout` holds — still takes the fallback
and leaves the breaker open, contradicting the claim that such a call
transitions to half-open and executes the primary. -/
theorem C5_breaker_boundary_counterexample :
    (30000 : Int) - (0 : Int) ≥ (30000 : Int)
    ∧ dispatchStep { failMax := 5, resetTimeout := 30000 }
        { failures := 5, lastFailure := 0, state := CBState.opened } 30000 true
      = (false, { failures := 5, lastFailure := 0, state := CBState.opened }) := by
  exact ⟨by norm_num, rfl⟩

/-- C5 (amended): while the breaker is open, every call made up to and
including the moment `resetTimeout` has elapsed since `lastFailureTime`
invokes the fallback with zero primary invocations and leaves the breaker
unchanged (also after `forceOpen`, which opens a non-open breaker with
`lastFailure = now` and `failures = failMax`); once
`now - lastFailureTime` strictly exceeds `resetTimeout`, the next call
transitions to half-open and executes the primary, whose success closes
the breaker and whose failure re-opens it (the failure count of an open
breaker being at least `failMax`). -/
theorem C5_breaker_open_behavior (cfg : BreakerConfig) (cb : Breaker)
    (hopen : cb.state = CBState.opened) :
    (∀ calls : List (Int × Bool),
      (∀ p ∈ calls, p.1 - cb.lastFailure ≤ cfg.resetTimeout) →
      runCalls cfg cb calls = (0, cb))
    ∧ (∀ now : Int, cfg.resetTimeout < now - cb.lastFailure →
      (dispatchStep cfg cb now true
          = (true, { cb with state := CBState.closed, failures := 0 }))
      ∧ ((dispatchStep cfg cb now false).1 = true
        ∧ (cfg.failMax ≤ cb.failures →
          dispatchStep cfg cb now false
            = (true, { cb with
                state := CBState.opened
                failures := cb.failures + 1
                lastFailure := now }))))
    ∧ (∀ cb0 : Breaker, ∀ t0 : Int,
      (forceOpen cfg cb0 t0).state = CBState.opened
      ∧ (cb0.state ≠ CBState.opened →
        forceOpen cfg cb0 t0
          = { failures := cfg.failMax, lastFailure := t0, state := CBState.opened })
      ∧ ∀ calls : List (Int × Bool),
        (∀ p ∈ calls, p.1 - (forceOpen cfg cb0 t0).lastFailure ≤ cfg.resetTimeout) →
        runCalls cfg (forceOpen cfg cb0 t0) calls = (0, forceOpen cfg cb0 t0)) := by
  refine ⟨runCalls_open_all_fallback cfg cb hopen, ?_, ?_⟩
  · intro now hlt
    refine ⟨?_, ?_, ?_⟩
    · rw [dispatchStep, hopen, if_pos hlt, runPrimary]
      simp
    · rw [dispatchStep, hopen, if_pos hlt, runPrimary]
      simp
    · intro hfail
      rw [dispatchStep, hopen, if_pos hlt, runPrimary]
      simp only [Bool.false_eq_true, if_false]
      rw [if_pos (by omega : cfg.failMax ≤ cb.failures + 1)]
  · intro cb0 t0
    have hst : (forceOpen cfg cb0 t0).state = CBState.opened := by
      rw [forceOpen]
      split
      · assumption
      · rfl
    refine ⟨hst, ?_, runCalls_open_all_fallback cfg _ hst⟩
    intro hne
    rw [forceOpen, if_neg hne]

/-- Witness for C5 at a concrete open breaker: two calls inside the
window take the fallback; a strictly later successful call closes the
breaker. -/
theorem C5_breaker_open_behavior_witness :
    runCalls { failMax := 5, resetTimeout := 30000 }
        { failures := 5, lastFailure := 0, state := CBState.opened }
        [(100, true), (30000, true)]
      = (0, { failures := 5, lastFailure := 0, state := CBState.opened })
    ∧ dispatchStep { failMax := 5, resetTimeout := 30000 }
        { failures := 5, lastFailure := 0, state := CBState.opened } 30001 true
      = (true, { failures := 0, lastFailure := 0, state := CBState.closed }) := by
  obtain ⟨hfall, hprobe, -⟩ := C5_breaker_open_behavior
    { failMax := 5, resetTimeout := 30000 }
    { failures := 5, lastFailure := 0, state := CBState.opened } rfl
  refine ⟨hfall [(100, true), (30000, true)] ?_, ?_⟩
  · intro p hp
    fin_cases hp <;> norm_num
  · have h2 := (hprobe 30001 (by norm_num)).1
    simpa using h2

/-- C6: for a caller that is not a system agent, the `queue_status` tool
returns a job view only when the caller is the record's dispatcher or its
target, the `queue_list` tool returns only views whose dispatcher or
target is the caller, and every view either tool returns has the
`openclawSessionKey` field removed. -/
theorem C6_query_visibility (caller : String) (hsys : isSystemAgent caller = false) :
    (∀ (found : Option AgentJob) (v : JobView),
      queueStatusTool caller found = StatusReply.ok v →
      (∃ j, found = some j ∧ (j.dispatchedBy = caller ∨ j.target = caller))
      ∧ v.openclawSessionKey = none)
    ∧ (∀ (pf : Option String) (lim : Nat) (jobs : List AgentJob),
      ∀ v ∈ queueListTool caller pf lim jobs,
        (v.dispatchedBy = caller ∨ v.target = caller)
        ∧ v.openclawSessionKey = none) := by
  constructor
  · intro found v hok
    cases found with
    | none => simp [queueStatusTool] at hok
    | some j =>
      rw [queueStatusTool] at hok
      split at hok
      · simp at hok
      · rename_i hcond
        have hvis : j.dispatchedBy = caller ∨ j.target = caller := by
          have hne : ¬ (j.dispatchedBy ≠ caller ∧ j.target ≠ caller) := by
            intro hne
            exact hcond ⟨by simp [hsys], hne.1, hne.2⟩
          rcases not_and_or.mp hne with h | h
          · exact Or.inl (not_not.mp h)
          · exact Or.inr (not_not.mp h)
        have hv : v = stripSensitiveFields (jobViewOf j) caller := by
          cases hok
          rfl
        refine ⟨⟨j, rfl, hvis⟩, ?_⟩
        rw [hv]
        simp [stripSensitiveFields, hsys]
  · intro pf lim jobs v hv
    rw [queueListTool] at hv
    obtain ⟨w, hw, rfl⟩ := List.mem_map.mp hv
    have hvis := queueListCollect_visibility caller hsys pf lim jobs []
      (by intro x hx; simp at hx) w hw
    constructor
    · simpa [stripSensitiveFields, hsys] using hvis
    · simp [stripSensitiveFields, hsys]

/-- Witness data for C6: a job dispatched by `iris` whose record carries a
session key. -/
def c6JobEx : AgentJob :=
  { c2JobEx.data with dispatchedBy := "iris", openclawSessionKey := some "agent:jarvis:subagent:u1" }

/-- Witness for C6: the non-system caller `iris` sees its own job through
`queue_status` with the `openclawSessionKey` field removed. -/
theorem C6_query_visibility_witness :
    isSystemAgent "iris" = false
    ∧ ∃ v, queueStatusTool "iris" (some c6JobEx) = StatusReply.ok v
        ∧ v.openclawSessionKey = none := by
  refine ⟨by decide, ⟨_, rfl, ?_⟩⟩
  exact ((C6_query_visibility "iris" (by decide)).1 (some c6JobEx) _ rfl).2

/-- C7: in the worker's launch validation, a caller depth at or above
`maxSpawnDepth` throws the unrecoverable error — which the queue's
launch-retry policy never retries — while (depth passing) an
active-children count at or above `maxChildrenPerAgent` throws a plain
recoverable error that the launch-retry policy retries while attempts
remain. -/
theorem C7_launch_limit_errors
    (callerDepth maxSpawnDepth activeChildren maxChildren attemptsMade attempts : Nat) :
    (maxSpawnDepth ≤ callerDepth →
      validateLaunchLimits callerDepth maxSpawnDepth activeChildren maxChildren
        = Except.error (LaunchErr.unrecoverable "Depth limit exceeded")
      ∧ launchRetryPolicyRetries (LaunchErr.unrecoverable "Depth limit exceeded")
          attemptsMade attempts = false)
    ∧ (callerDepth < maxSpawnDepth → maxChildren ≤ activeChildren →
      validateLaunchLimits callerDepth maxSpawnDepth activeChildren maxChildren
        = Except.error
            (LaunchErr.recoverable "Active children limit reached. Job will retry.")
      ∧ (attemptsMade < attempts →
        launchRetryPolicyRetries
          (LaunchErr.recoverable "Active children limit reached. Job will retry.")
          attemptsMade attempts = true)) := by
  constructor
  · intro hdepth
    refine ⟨?_, rfl⟩
    rw [validateLaunchLimits, if_pos hdepth]
  · intro hdepth hchildren
    refine ⟨?_, ?_⟩
    · rw [validateLaunchLimits, if_neg (by omega), if_pos hchildren]
    · intro hatt
      simpa [launchRetryPolicyRetries] using hatt

/-- Witness for C7 at the default limits (`maxSpawnDepth = 1`,
`maxChildren = 5`, 3 launch attempts). -/
theorem C7_launch_limit_errors_witness :
    validateLaunchLimits 1 1 0 5
      = Except.error (LaunchErr.unrecoverable "Depth limit exceeded")
    ∧ launchRetryPolicyRetries (LaunchErr.unrecoverable "Depth limit exceeded") 0 3 = false
    ∧ validateLaunchLimits 0 1 5 5
      = Except.error (LaunchErr.recoverable "Active children limit reached. Job will retry.")
    ∧ launchRetryPolicyRetries
        (LaunchErr.recoverable "Active children limit reached. Job will retry.") 0 3 = true := by
  obtain ⟨h1, h2⟩ := (C7_launch_limit_errors 1 1 0 5 0 3).1 (Nat.le_refl 1)
  obtain ⟨h3, h4⟩ := (C7_launch_limit_errors 0 1 5 5 0 3).2 (by omega) (Nat.le_refl 5)
  exact ⟨h1, h2, h3, h4 (by omega)⟩

/-- C8: for a positive per-minute limit, the atomic script increments the
caller's counter (setting the 60-second TTL exactly on the first
increment of the window) and the dispatch is rejected exactly when the
incremented counter exceeds the limit: an incremented counter equal to
the limit is accepted, one past it is rejected. -/
theorem C8_rate_limit_gate (limit : Nat) (counter : Option Nat) (hpos : 0 < limit) :
    ((rateLimitGate limit counter).1 = false ↔ limit < counter.getD 0 + 1)
    ∧ (rateLimitGate limit counter).2.1 = some (counter.getD 0 + 1)
    ∧ ((rateLimitGate limit counter).2.2 = some 60 ↔ counter.getD 0 + 1 = 1)
    ∧ (counter.getD 0 + 1 = limit → (rateLimitGate limit counter).1 = true)
    ∧ (counter.getD 0 + 1 = limit + 1 → (rateLimitGate limit counter).1 = false) := by
  have hg : rateLimitGate limit counter
      = ((¬ limit < counter.getD 0 + 1 : Bool), some (counter.getD 0 + 1),
          if counter.getD 0 + 1 = 1 then some 60 else none) := by
    rw [rateLimitGate, if_pos hpos]
    rfl
  rw [hg]
  refine ⟨by simp, rfl, ?_, ?_, ?_⟩
  · by_cases h1 : counter.getD 0 + 1 = 1 <;> simp [h1]
  · intro heq
    simp [heq]
  · intro heq
    simp [heq]

/-- Witness for C8 at the default limit of 10 dispatches per minute: a
counter at 9 increments to 10 and is accepted; a counter at 10 increments
to 11 and is rejected. -/
theorem C8_rate_limit_gate_witness :
    (rateLimitGate defaultDispatchesPerMinute (some 9)).1 = true
    ∧ (rateLimitGate defaultDispatchesPerMinute (some 10)).1 = false := by
  constructor
  · exact (C8_rate_limit_gate 10 (some 9) (by omega)).2.2.2.1 rfl
  · exact (C8_rate_limit_gate 10 (some 10) (by omega)).2.2.2.2 rfl

/-- C9: evaluating the sanitizer at the failing input: the task
`"@every\u0000one"` carries a null byte inside a mention pattern, and
because null-byte stripping runs after mention replacement, the sanitized
output is exactly `"@everyone"` — it still contains the `@everyone`
mention pattern, contradicting the claim that the sanitized text contains
no such patterns. -/
theorem C9_sanitizer_nullbyte_mention_bug :
    sanitizeTaskForDiscord "@every\u0000one".data 500 = "@everyone".data
    ∧ containsLit "@everyone".data (sanitizeTaskForDiscord "@every\u0000one".data 500) = true
    ∧ "@every\u0000one".data.contains '\u0000' = true :=
  ⟨by decide, by decide, by decide⟩

/-- C10: the failed-event listener subscribes on `agent:{id}` while the
tracker and workers use `agent-{id}`; the two names differ for every
agent id, so the per-queue failed-event subscription never observes a job
enqueued through the tracker. -/
theorem C10_dlq_queue_name_mismatch (agentId : String) :
    dlqListenerQueueName agentId = "agent:" ++ agentId
    ∧ trackerQueueName agentId = "agent-" ++ agentId
    ∧ dlqListenerQueueName agentId ≠ trackerQueueName agentId
    ∧ ¬ failedEventObserved (dlqListenerQueueName agentId) (trackerQueueName agentId) := by
  have hne : dlqListenerQueueName agentId ≠ trackerQueueName agentId := by
    intro h
    have hdata : "agent:".data ++ agentId.data = "agent-".data ++ agentId.data :=
      congrArg String.data h
    have hpre := (List.append_inj hdata (by decide)).1
    simp at hpre
  exact ⟨rfl, rfl, hne, hne⟩

end KsOpenclaw
